import Mathlib

/-!
Verification of the go_proxy redirection and logging pipeline (src/main.go).

The development shallowly embeds the data model and the operations of the
proxy: the header multimap of net/http together with the textproto key
canonicalisation that its Set/Add/Values methods apply, the URL resolution
performed through net/url, the request and response loggers, and the
redirectHandler pipeline.  Headers are represented as association lists
(one entry per Go map key); the nondeterministic Go map iteration order is
covered by quantifying theorems over arbitrary entry orders.
-/

namespace GoProxy

/-- Characters the Go textproto package accepts as valid header-field bytes
(letters, digits, and the punctuation of the token table). -/
def isTokenChar (c : Char) : Bool :=
  c.isAlphanum || [33, 35, 36, 37, 38, 39, 42, 43, 45, 46, 94, 95, 96, 124, 126].contains c.toNat

/-- Case-folding loop of textproto canonicalisation: uppercase the first
letter and every letter following a hyphen, lowercase the rest. -/
def canonChars : Bool → List Char → List Char
  | _, [] => []
  | upper, c :: cs =>
    let c2 := if upper then c.toUpper else c.toLower
    c2 :: canonChars (c2 == '-') cs

/-- Modelled from the Go standard library textproto.CanonicalMIMEHeaderKey:
a key containing an invalid header-field byte is returned unmodified,
otherwise it is put in canonical form. -/
def canonicalKey (s : String) : String :=
  if s.data.all isTokenChar then ⟨canonChars true s.data⟩ else s

/-- A Go http.Header value: a map from (canonical) header names to ordered
value lists, represented as an association list with one entry per map key. -/
abbrev Header := List (String × List String)

/-- Update of the entry of a map key: append one value to the entry holding
the given canonical key, or create the entry if the key is absent. -/
def addCanon : Header → String → String → Header
  | [], ck, v => [(ck, [v])]
  | p :: rest, ck, v =>
    if p.1 = ck then (p.1, p.2 ++ [v]) :: rest else p :: addCanon rest ck v

/-- Replacement of the entry of a map key: the entry holding the given
canonical key is replaced by the single given value. -/
def setCanon : Header → String → String → Header
  | [], ck, v => [(ck, [v])]
  | p :: rest, ck, v =>
    if p.1 = ck then (p.1, [v]) :: rest else p :: setCanon rest ck v

/-- Lookup of the value list held under a canonical key. -/
def valuesCanon : Header → String → List String
  | [], _ => []
  | p :: rest, ck => if p.1 = ck then p.2 else valuesCanon rest ck

/-- Modelled from net/http Header.Add: canonicalise the key, append the value. -/
def Header.add (h : Header) (k v : String) : Header := addCanon h (canonicalKey k) v

/-- Modelled from net/http Header.Set: canonicalise the key, replace all values. -/
def Header.set (h : Header) (k v : String) : Header := setCanon h (canonicalKey k) v

/-- Modelled from net/http Header.Values: canonicalise the key, look it up. -/
def Header.values (h : Header) (k : String) : List String := valuesCanon h (canonicalKey k)

/-- Number of map entries stored under a given canonical key (one for a
well-formed Go map, since map keys are unique). -/
def countEntriesCanon (h : Header) (ck : String) : Nat :=
  (h.filter (fun p => p.1 == ck)).length

/-- Body of the header-copy loop of redirectHandler: for a header named
exactly "User-Agent" the outbound value is Set to the fixed constant,
otherwise the inbound value is Added. -/
def uaStep (out : Header) (name value : String) : Header :=
  if name = "User-Agent" then Header.set out name "MyCustomUserAgent"
  else Header.add out name value

/-- Inner loop of the header copy: one inbound map entry, all its values in order. -/
def copyEntry (out : Header) (p : String × List String) : Header :=
  p.2.foldl (fun o v => uaStep o p.1 v) out

/-- Outer loop of the header copy of redirectHandler, starting from the
empty header map of the freshly created outbound request. -/
def copyHeaders (inbound : Header) : Header :=
  inbound.foldl copyEntry []

/-- Header transformation of redirectHandler: copy all inbound headers,
then Set the fixed extra header. -/
def transformHeaders (inbound : Header) : Header :=
  Header.set (copyHeaders inbound) "X-Added-Header" "HeaderValue"

/-- Inner loop of the response relay of redirectHandler: Add every value of
one upstream response header entry. -/
def relayEntry (out : Header) (p : String × List String) : Header :=
  p.2.foldl (fun o v => Header.add o p.1 v) out

/-- Response-header relay loop of redirectHandler, starting from the empty
client response header map. -/
def relayHeaders (respHeader : Header) : Header :=
  respHeader.foldl relayEntry []

/-- URL record with the fields of net/url URL that the proxy exercises.
The opaq field models URL.Opaque; userinfo, port splitting and percent
escaping are outside the restricted model (the proxy never produces them
on the claims' inputs). -/
structure GoURL where
  scheme : String := ""
  opaq : String := ""
  host : String := ""
  path : String := ""
  forceQuery : Bool := false
  rawQuery : String := ""
  fragment : String := ""
deriving DecidableEq

/-- Control-byte scan of net/url Parse: a URL containing a byte below
space or the delete byte is rejected. -/
def containsCTL (s : String) : Bool :=
  s.data.any (fun c => c.toNat < 32 || c.toNat == 127)

/-- Cut a character list at the first occurrence of a separator, returning
the part before, the part after, and whether the separator occurred. -/
def cutAt (c : Char) : List Char → List Char × List Char × Bool
  | [] => ([], [], false)
  | x :: xs =>
    if x = c then ([], xs, true)
    else
      let r := cutAt c xs
      (x :: r.1, r.2.1, r.2.2)

/-- List version of a string has-prefix test. -/
def hasPfx : List Char → List Char → Bool
  | [], _ => true
  | _ :: _, [] => false
  | p :: ps, c :: cs => p == c && hasPfx ps cs

/-- Scheme scan of net/url getScheme: letters continue a scheme, digits and
plus, minus, dot continue it except in first position, a colon ends it
(erroring when it comes first), anything else means there is no scheme. -/
def getSchemeAux : List Char → List Char → Except String (Option (List Char × List Char))
  | _, [] => Except.ok none
  | acc, c :: cs =>
    if c = ':' then
      if acc = [] then Except.error "missing protocol scheme"
      else Except.ok (some (acc, cs))
    else if c.isAlpha then getSchemeAux (acc ++ [c]) cs
    else if c.isDigit || c = '+' || c = '-' || c = '.' then
      if acc = [] then Except.ok none else getSchemeAux (acc ++ [c]) cs
    else Except.ok none

/-- Modelled from net/url getScheme: split off a lowercased scheme when one
is present, otherwise leave the input untouched. -/
def getScheme (s : String) : Except String (String × String) :=
  match getSchemeAux [] s.data with
  | Except.error e => Except.error e
  | Except.ok none => Except.ok ("", s)
  | Except.ok (some (sch, rest)) => Except.ok (⟨sch.map Char.toLower⟩, ⟨rest⟩)

/-- Query split of net/url parse: a single trailing question mark records a
forced query, otherwise the raw query is everything after the first one. -/
def splitQuery (rest : List Char) : List Char × String × Bool :=
  if rest.getLast? == some '?' && !(rest.dropLast.contains '?') then
    (rest.dropLast, "", true)
  else
    let r := cutAt '?' rest
    (r.1, ⟨r.2.1⟩, false)

/-- Modelled from the Go standard library net/url.Parse, restricted to the
shapes the proxy uses: control-byte rejection, fragment and query split,
scheme detection, rootless-path opaque form, colon check on the first path
segment, and authority extraction without userinfo, port or escaping. -/
def parseURL (rawURL : String) : Except String GoURL :=
  if containsCTL rawURL then Except.error "net/url: invalid control character in URL"
  else
    let fcut := cutAt '#' rawURL.data
    let frag : String := ⟨fcut.2.1⟩
    match getScheme ⟨fcut.1⟩ with
    | Except.error e => Except.error e
    | Except.ok (scheme, restStr) =>
      let qcut := splitQuery restStr.data
      let rest := qcut.1
      let rawQuery := qcut.2.1
      let forceQuery := qcut.2.2
      if !(hasPfx ['/'] rest) && !(scheme == "") then
        Except.ok { scheme := scheme, opaq := ⟨rest⟩, rawQuery := rawQuery,
                    forceQuery := forceQuery, fragment := frag }
      else if !(hasPfx ['/'] rest) && (cutAt '/' rest).1.contains ':' then
        Except.error "first path segment in URL cannot contain colon"
      else if (!(scheme == "") || !(hasPfx ['/', '/', '/'] rest)) && hasPfx ['/', '/'] rest then
        let acut := cutAt '/' (rest.drop 2)
        let restPath : List Char := if acut.2.2 then '/' :: acut.2.1 else []
        Except.ok { scheme := scheme, host := ⟨acut.1⟩, path := ⟨restPath⟩,
                    rawQuery := rawQuery, forceQuery := forceQuery, fragment := frag }
      else
        Except.ok { scheme := scheme, path := ⟨rest⟩, rawQuery := rawQuery,
                    forceQuery := forceQuery, fragment := frag }

/-- Prefix of a character list up to and including its last slash; empty
when no slash occurs. -/
def upToLastSlash (s : List Char) : List Char :=
  (s.reverse.dropWhile (fun c => !(c == '/'))).reverse

/-- Split of a character list on slashes, mirroring strings.Split. -/
def splitSlash : List Char → List String
  | [] => [""]
  | c :: cs =>
    let r := splitSlash cs
    if c = '/' then "" :: r
    else
      match r with
      | s :: rest => (⟨c :: s.data⟩ : String) :: rest
      | [] => [⟨[c]⟩]

/-- Join of path segments with slashes, mirroring strings.Join. -/
def joinSlash : List String → String
  | [] => ""
  | [s] => s
  | s :: rest => s ++ "/" ++ joinSlash rest

/-- Modelled from net/url resolvePath: merge the reference path with the
base path, drop dot segments, and keep a trailing slash after a final dot
segment. -/
def resolvePath (base ref : String) : String :=
  let full : List Char :=
    if ref = "" then base.data
    else if !(hasPfx ['/'] ref.data) then upToLastSlash base.data ++ ref.data
    else ref.data
  if full = [] then ""
  else
    let src := splitSlash full
    let dst := src.foldl
      (fun dst elem =>
        if elem = "." then dst
        else if elem = ".." then dst.dropLast
        else dst ++ [elem]) ([] : List String)
    let dst := if src.getLast? = some "." ∨ src.getLast? = some ".." then dst ++ [""] else dst
    let joined := joinSlash dst
    ⟨'/' :: (if hasPfx ['/'] joined.data then joined.data.drop 1 else joined.data)⟩

/-- Modelled from net/url URL.ResolveReference: the reference wins whenever
it carries a scheme or a host, an opaque reference keeps only itself, an
empty reference path inherits query and fragment from the base, and
otherwise the base authority is combined with the resolved path. -/
def resolveReference (u ref : GoURL) : GoURL :=
  let r0 := { ref with scheme := if ref.scheme = "" then u.scheme else ref.scheme }
  if ¬ ref.scheme = "" ∨ ¬ ref.host = "" then
    { r0 with path := resolvePath ref.path "" }
  else if ¬ ref.opaq = "" then
    { r0 with host := "", path := "" }
  else
    let r1 :=
      if ref.path = "" ∧ ref.forceQuery = false ∧ ref.rawQuery = "" then
        { r0 with rawQuery := u.rawQuery,
                  fragment := if ref.fragment = "" then u.fragment else ref.fragment }
      else r0
    { r1 with host := u.host, path := resolvePath u.path ref.path }

/-- Modelled from net/url URL.String, restricted alike: scheme with colon,
double slash before a nonempty authority or rooted remainder, opaque data
verbatim, then query and fragment. -/
def urlString (u : GoURL) : String :=
  let s1 := if u.scheme = "" then "" else u.scheme ++ ":"
  let s2 :=
    if ¬ u.opaq = "" then s1 ++ u.opaq
    else
      let sa := if (¬ u.scheme = "" ∨ ¬ u.host = "") ∧ (¬ u.host = "" ∨ ¬ u.path = "")
                then s1 ++ "//" else s1
      let sb := sa ++ u.host
      if ¬ u.path = "" ∧ !(hasPfx ['/'] u.path.data) ∧ ¬ u.host = ""
      then sb ++ "/" ++ u.path else sb ++ u.path
  let s3 := if u.forceQuery = true ∨ ¬ u.rawQuery = "" then s2 ++ "?" ++ u.rawQuery else s2
  if u.fragment = "" then s3 else s3 ++ "#" ++ u.fragment

/-- State of an HTTP body stream: either a fresh stream holding the given
content, or a stream whose full read fails with the given error text. -/
inductive BodyState where
  | readable (content : String)
  | failing (msg : String)
deriving DecidableEq

/-- Modelled from io/ioutil ReadAll on a body stream: a fresh stream yields
its whole content and is left at end of file, a broken stream yields its
error and stays in its failed state without being reset. -/
def readAll : BodyState → Except String String × BodyState
  | BodyState.readable s => (Except.ok s, BodyState.readable "")
  | BodyState.failing m => (Except.error m, BodyState.failing m)

/-- An inbound http.Request as the handler sees it: method, server-parsed
URL, header map, body stream. -/
structure Request where
  method : String
  url : GoURL
  header : Header
  body : BodyState

/-- An upstream http.Response: status code, status line, header map, body
stream. -/
structure Response where
  statusCode : Nat
  status : String
  header : Header
  body : BodyState

/-- Header lines emitted by the nested logging loops: one line per
(name, value) pair, in entry order and value order. -/
def headerLines (tag : String) (h : Header) : List String :=
  h.flatMap (fun p => p.2.map (fun v => tag ++ p.1 ++ ": " ++ v))

/-- The logRequest function of main.go: emit the method and URL line and
one line per header value, read the whole body; on success restore a fresh
identical body and emit the body line, on failure emit the failure line,
return leaving the body in its failed state. -/
def logRequest (r : Request) : Request × List String :=
  let pre := ("Request: " ++ r.method ++ " " ++ urlString r.url)
      :: headerLines "Request Header: " r.header
  match readAll r.body with
  | (Except.ok bs, _) =>
    ({ r with body := BodyState.readable bs }, pre ++ ["Request Body: " ++ bs])
  | (Except.error e, b2) =>
    ({ r with body := b2 }, pre ++ ["Failed to read request body: " ++ e])

/-- The logResponse function of main.go, symmetric to logRequest on the
upstream response. -/
def logResponse (resp : Response) : Response × List String :=
  let pre := ("Response: " ++ resp.status) :: headerLines "Response Header: " resp.header
  match readAll resp.body with
  | (Except.ok bs, _) =>
    ({ resp with body := BodyState.readable bs }, pre ++ ["Response Body: " ++ bs])
  | (Except.error e, b2) =>
    ({ resp with body := b2 }, pre ++ ["Failed to read response body: " ++ e])

/-- The outbound request built by redirectHandler via http.NewRequest plus
the header transformation. -/
structure ProxyRequest where
  method : String
  urlStr : String
  header : Header
  body : BodyState

/-- Construction of the outbound request of redirectHandler: same method,
the resolved target URL rendered as a string, the transformed headers, and
the request body stream as it is after logging. -/
def outboundRequest (r : Request) (target : GoURL) : ProxyRequest :=
  { method := r.method, urlStr := urlString (resolveReference target r.url),
    header := transformHeaders r.header, body := r.body }

/-- Modelled from io.Copy of the response body to the client: a fresh
stream is streamed in full with no error, a broken stream delivers nothing
and surfaces its error. -/
def copyBody : BodyState → String × Option String
  | BodyState.readable s => (s, none)
  | BodyState.failing m => ("", some m)

/-- Modelled from net/http Error: the plain-text headers it sets on the
client response. -/
def httpErrorHeader : Header :=
  Header.set (Header.set [] "Content-Type" "text/plain; charset=utf-8")
    "X-Content-Type-Options" "nosniff"

/-- Modelled from net/http Error: the message is written followed by a
newline. -/
def httpErrorBody (msg : String) : String := msg ++ "\n"

/-- Everything redirectHandler writes: client status, client headers,
client body bytes, the three log channels, and the list of upstream
dispatch attempts actually made. -/
structure HandlerOutput where
  status : Nat
  clientHeader : Header
  clientBody : String
  requestLog : List String
  responseLog : List String
  errorLog : List String
  attempts : List ProxyRequest

/-- The redirectHandler pipeline of main.go: log the request, parse the
target base URL (per-request 500 on failure), build the outbound request,
dispatch it once through the network, map a dispatch failure to a 500, and
otherwise log the response and relay status, headers and body. The
http.NewRequest failure branch of the source is not modelled: for the
method and the URL string the handler just produced it cannot fire. -/
def redirectHandler (r : Request) (targetServer : String)
    (network : ProxyRequest → Except String Response) : HandlerOutput :=
  let lr := logRequest r
  match parseURL targetServer with
  | Except.error e =>
    { status := 500, clientHeader := httpErrorHeader,
      clientBody := httpErrorBody "Invalid target server URL",
      requestLog := lr.2, responseLog := [],
      errorLog := ["Invalid target server URL: " ++ e], attempts := [] }
  | Except.ok target =>
    let proxyReq := outboundRequest lr.1 target
    match network proxyReq with
    | Except.error e =>
      { status := 500, clientHeader := httpErrorHeader,
        clientBody := httpErrorBody "Failed to connect to server",
        requestLog := lr.2, responseLog := [],
        errorLog := ["Failed to connect to server: " ++ e], attempts := [proxyReq] }
    | Except.ok resp =>
      let lresp := logResponse resp
      let cb := copyBody lresp.1.body
      { status := lresp.1.statusCode,
        clientHeader := relayHeaders lresp.1.header,
        clientBody := cb.1,
        requestLog := lr.2, responseLog := lresp.2,
        errorLog :=
          match cb.2 with
          | some e => ["Failed to copy response body: " ++ e]
          | none => [],
        attempts := [proxyReq] }

/-- Concrete target base URL record, the parse of "http://upstream.example/". -/
def upstreamTarget : GoURL := { scheme := "http", host := "upstream.example", path := "/" }

/-- Concrete GET request fixture with an empty readable body. -/
def reqGET : Request :=
  { method := "GET", url := { path := "/" }, header := [], body := BodyState.readable "" }

/-- Concrete POST request fixture with a two-valued header and body "B". -/
def reqPOST : Request :=
  { method := "POST", url := { path := "/a" }, header := [("X-M", ["1", "2"])],
    body := BodyState.readable "B" }

/-- Concrete request fixture whose body stream fails to read. -/
def reqFailBody : Request :=
  { method := "POST", url := { path := "/a" }, header := [],
    body := BodyState.failing "read error" }

/-- Concrete request fixture with a nonempty readable body. -/
def reqPayload : Request :=
  { method := "POST", url := {}, header := [], body := BodyState.readable "payload" }

/-- Concrete upstream response fixture of the P5 example. -/
def resp201 : Response :=
  { statusCode := 201, status := "201 Created", header := [("X-Foo", ["a", "b"])],
    body := BodyState.readable "hello" }

/-- Concrete upstream response fixture with an empty header map. -/
def respOK : Response :=
  { statusCode := 200, status := "200 OK", header := [], body := BodyState.readable "resp" }

/-- Network fixture that always answers with the P5 response. -/
def netOK : ProxyRequest → Except String Response := fun _ => Except.ok resp201

/-- Network fixture that always fails the dispatch. -/
def netFail : ProxyRequest → Except String Response :=
  fun _ => Except.error "connection refused"

/-- Concrete inbound request of the P4 example. -/
def c4Request : Request :=
  { method := "GET", url := { path := "/v1/items", rawQuery := "x=1" }, header := [],
    body := BodyState.readable "" }

/-- Concrete target record, the parse of "http://api.example.com/base". -/
def c4Target : GoURL := { scheme := "http", host := "api.example.com", path := "/base" }

theorem valuesCanon_addCanon (h : Header) (ck v q : String) :
    valuesCanon (addCanon h ck v) q =
      if q = ck then valuesCanon h q ++ [v] else valuesCanon h q := by
  induction h with
  | nil =>
    by_cases hq : q = ck
    · subst hq; simp [addCanon, valuesCanon]
    · simp [addCanon, valuesCanon, hq, Ne.symm hq]
  | cons p rest ih =>
    by_cases hp : p.1 = ck
    · subst hp
      by_cases hq : q = p.1
      · subst hq; simp [addCanon, valuesCanon]
      · simp [addCanon, valuesCanon, hq, Ne.symm hq]
    · by_cases hpq : p.1 = q
      · subst hpq
        simp [addCanon, valuesCanon, hp]
      · simp [addCanon, valuesCanon, hp, hpq, ih]

theorem valuesCanon_setCanon (h : Header) (ck v q : String) :
    valuesCanon (setCanon h ck v) q =
      if q = ck then [v] else valuesCanon h q := by
  induction h with
  | nil =>
    by_cases hq : q = ck
    · subst hq; simp [setCanon, valuesCanon]
    · simp [setCanon, valuesCanon, hq, Ne.symm hq]
  | cons p rest ih =>
    by_cases hp : p.1 = ck
    · subst hp
      by_cases hq : q = p.1
      · subst hq; simp [setCanon, valuesCanon]
      · simp [setCanon, valuesCanon, hq, Ne.symm hq]
    · by_cases hpq : p.1 = q
      · subst hpq
        simp [setCanon, valuesCanon, hp]
      · simp [setCanon, valuesCanon, hp, hpq, ih]

/-- Keys of a map after addCanon: unchanged when the key is present,
extended by the key otherwise. -/
theorem keys_addCanon (h : Header) (ck v : String) :
    (addCanon h ck v).map Prod.fst =
      if ck ∈ h.map Prod.fst then h.map Prod.fst else h.map Prod.fst ++ [ck] := by
  induction h with
  | nil => simp [addCanon]
  | cons p rest ih =>
    by_cases hp : p.1 = ck
    · simp [addCanon, hp]
    · have : ¬ ck = p.1 := fun h => hp h.symm
      by_cases hm : ck ∈ rest.map Prod.fst
      · simp [addCanon, hp, hm, ih, this]
      · simp [addCanon, hp, hm, ih, this]

/-- Keys of a map after setCanon: unchanged when the key is present,
extended by the key otherwise. -/
theorem keys_setCanon (h : Header) (ck v : String) :
    (setCanon h ck v).map Prod.fst =
      if ck ∈ h.map Prod.fst then h.map Prod.fst else h.map Prod.fst ++ [ck] := by
  induction h with
  | nil => simp [setCanon]
  | cons p rest ih =>
    by_cases hp : p.1 = ck
    · simp [setCanon, hp]
    · have : ¬ ck = p.1 := fun h => hp h.symm
      by_cases hm : ck ∈ rest.map Prod.fst
      · simp [setCanon, hp, hm, ih, this]
      · simp [setCanon, hp, hm, ih, this]

theorem nodupKeys_addCanon (h : Header) (ck v : String)
    (hd : (h.map Prod.fst).Nodup) : ((addCanon h ck v).map Prod.fst).Nodup := by
  rw [keys_addCanon]
  by_cases hm : ck ∈ h.map Prod.fst
  · simpa [hm] using hd
  · simp [hm, List.nodup_append, hd]

theorem nodupKeys_setCanon (h : Header) (ck v : String)
    (hd : (h.map Prod.fst).Nodup) : ((setCanon h ck v).map Prod.fst).Nodup := by
  rw [keys_setCanon]
  by_cases hm : ck ∈ h.map Prod.fst
  · simpa [hm] using hd
  · simp [hm, List.nodup_append, hd]

theorem filter_eq_nil_of_not_mem_keys (h : Header) (ck : String)
    (hm : ck ∉ h.map Prod.fst) : h.filter (fun p => p.1 == ck) = [] := by
  induction h with
  | nil => simp
  | cons p rest ih =>
    have h1 : ¬ p.1 = ck := by
      intro he; exact hm (by simp [he])
    have h2 : ck ∉ rest.map Prod.fst := fun hmem => hm (by simp [hmem])
    simp [List.filter_cons, h1, ih h2]

/-- A map with pairwise distinct keys stores a key with a nonempty value
list in exactly one entry. -/
theorem countEntriesCanon_eq_one (h : Header) (ck : String)
    (hd : (h.map Prod.fst).Nodup) (hv : valuesCanon h ck ≠ []) :
    countEntriesCanon h ck = 1 := by
  induction h with
  | nil => simp [valuesCanon] at hv
  | cons p rest ih =>
    rw [List.map_cons, List.nodup_cons] at hd
    by_cases hp : p.1 = ck
    · have hfil : rest.filter (fun q => q.1 == ck) = [] :=
        filter_eq_nil_of_not_mem_keys rest ck (hp ▸ hd.1)
      simp [countEntriesCanon, List.filter_cons, hp, hfil]
    · have hv2 : valuesCanon rest ck ≠ [] := by
        simpa [valuesCanon, hp] using hv
      have := ih hd.2 hv2
      simpa [countEntriesCanon, List.filter_cons, hp] using this

theorem canonicalKey_UA : canonicalKey "User-Agent" = "User-Agent" := by decide

theorem canonicalKey_XAH : canonicalKey "X-Added-Header" = "X-Added-Header" := by decide

theorem valuesCanon_foldl_addCanon (vs : List String) (out : Header) (ck q : String) :
    valuesCanon (vs.foldl (fun o v => addCanon o ck v) out) q =
      if q = ck then valuesCanon out q ++ vs else valuesCanon out q := by
  induction vs generalizing out with
  | nil => by_cases hq : q = ck <;> simp [hq]
  | cons v vs ih =>
    rw [List.foldl_cons, ih]
    by_cases hq : q = ck
    · simp [hq, valuesCanon_addCanon]
    · simp [hq, valuesCanon_addCanon]

theorem valuesCanon_foldl_setConst (vs : List String) (out : Header) (ck v0 q : String) :
    valuesCanon (vs.foldl (fun o _ => setCanon o ck v0) out) q =
      if vs = [] then valuesCanon out q
      else if q = ck then [v0] else valuesCanon out q := by
  induction vs generalizing out with
  | nil => simp
  | cons v vs ih =>
    rw [List.foldl_cons, ih]
    by_cases hvs : vs = []
    · simp [hvs, valuesCanon_setCanon]
    · by_cases hq : q = ck
      · simp [hvs, hq]
      · simp [hvs, hq, valuesCanon_setCanon]

theorem valuesCanon_copyEntry (out : Header) (p : String × List String) (q : String) :
    valuesCanon (copyEntry out p) q =
      if p.1 = "User-Agent" then
        (if p.2 = [] then valuesCanon out q
         else if q = "User-Agent" then ["MyCustomUserAgent"] else valuesCanon out q)
      else if q = canonicalKey p.1 then valuesCanon out q ++ p.2 else valuesCanon out q := by
  by_cases hp : p.1 = "User-Agent"
  · have hfn : (fun o v => uaStep o p.1 v) =
        (fun (o : Header) (_ : String) => setCanon o "User-Agent" "MyCustomUserAgent") := by
      funext o v
      simp only [uaStep, Header.set, hp, canonicalKey_UA, if_pos]
    rw [copyEntry, hfn, valuesCanon_foldl_setConst]
    simp [hp]
  · have hfn : (fun o v => uaStep o p.1 v) =
        (fun (o : Header) (v : String) => addCanon o (canonicalKey p.1) v) := by
      funext o v
      simp only [uaStep, Header.add, hp, if_neg, ite_false]
    rw [copyEntry, hfn, valuesCanon_foldl_addCanon]
    simp [hp]

theorem valuesCanon_foldl_copyEntry_frame (l : Header) (out : Header) (q : String)
    (hfr : ∀ p ∈ l, canonicalKey p.1 ≠ q) :
    valuesCanon (l.foldl copyEntry out) q = valuesCanon out q := by
  induction l generalizing out with
  | nil => rfl
  | cons p rest ih =>
    rw [List.foldl_cons, ih _ (fun x hx => hfr x (List.mem_cons_of_mem p hx))]
    have hp := hfr p (List.mem_cons_self p rest)
    rw [valuesCanon_copyEntry]
    by_cases hUA : p.1 = "User-Agent"
    · rw [hUA, canonicalKey_UA] at hp
      simp [hUA, Ne.symm hp]
    · have hq : q ≠ canonicalKey p.1 := Ne.symm hp
      simp [hUA, hq]

theorem valuesCanon_copyHeaders_single (l1 l2 : Header) (k : String) (vs : List String)
    (h1 : ∀ p ∈ l1, canonicalKey p.1 ≠ canonicalKey k)
    (h2 : ∀ p ∈ l2, canonicalKey p.1 ≠ canonicalKey k) :
    valuesCanon (copyHeaders (l1 ++ (k, vs) :: l2)) (canonicalKey k) =
      if k = "User-Agent" then (if vs = [] then [] else ["MyCustomUserAgent"]) else vs := by
  rw [copyHeaders, List.foldl_append, List.foldl_cons]
  rw [valuesCanon_foldl_copyEntry_frame l2 _ _ h2]
  rw [valuesCanon_copyEntry]
  by_cases hUA : k = "User-Agent"
  · subst hUA
    rw [valuesCanon_foldl_copyEntry_frame l1 _ _ h1]
    simp [canonicalKey_UA, valuesCanon]
  · rw [if_neg hUA, if_pos rfl, valuesCanon_foldl_copyEntry_frame l1 _ _ h1]
    simp [hUA, valuesCanon]

theorem nodupKeys_foldl_uaStep (vs : List String) (out : Header) (k : String)
    (hd : (out.map Prod.fst).Nodup) :
    ((vs.foldl (fun o v => uaStep o k v) out).map Prod.fst).Nodup := by
  induction vs generalizing out with
  | nil => exact hd
  | cons v vs ih =>
    rw [List.foldl_cons]
    apply ih
    simp only [uaStep, Header.set, Header.add]
    by_cases hk : k = "User-Agent"
    · rw [if_pos hk]; exact nodupKeys_setCanon _ _ _ hd
    · rw [if_neg hk]; exact nodupKeys_addCanon _ _ _ hd

theorem nodupKeys_copyHeaders (l : Header) : ((copyHeaders l).map Prod.fst).Nodup := by
  suffices h : ∀ out : Header, (out.map Prod.fst).Nodup →
      ((l.foldl copyEntry out).map Prod.fst).Nodup by
    exact h [] (by simp)
  induction l with
  | nil => intro out hd; exact hd
  | cons p rest ih =>
    intro out hd
    rw [List.foldl_cons]
    exact ih _ (nodupKeys_foldl_uaStep p.2 out p.1 hd)

theorem nodupKeys_transformHeaders (l : Header) :
    ((transformHeaders l).map Prod.fst).Nodup :=
  nodupKeys_setCanon _ _ _ (nodupKeys_copyHeaders l)

/-- C1 counterexample: an inbound request with an empty header map has zero
User-Agent values, yet the outbound header map built by transformHeaders
holds no User-Agent value at all, refuting that the outbound request always
has exactly one User-Agent header equal to "MyCustomUserAgent". -/
theorem userAgent_zero_values_counterexample :
    Header.values (transformHeaders []) "User-Agent" = [] ∧
    ¬ Header.values (transformHeaders []) "User-Agent" = ["MyCustomUserAgent"] := by
  decide

/-- C1 amended: whenever the inbound header map holds at least one value
under the exact key "User-Agent" and no other map key canonicalises to
"User-Agent", the outbound request built by transformHeaders has exactly
one User-Agent header, equal to the fixed constant "MyCustomUserAgent". -/
theorem userAgent_override (l1 l2 : Header) (vs : List String)
    (h1 : ∀ p ∈ l1, canonicalKey p.1 ≠ "User-Agent")
    (h2 : ∀ p ∈ l2, canonicalKey p.1 ≠ "User-Agent")
    (hvs : vs ≠ []) :
    Header.values (transformHeaders (l1 ++ ("User-Agent", vs) :: l2)) "User-Agent"
        = ["MyCustomUserAgent"] ∧
    countEntriesCanon (transformHeaders (l1 ++ ("User-Agent", vs) :: l2)) "User-Agent" = 1 := by
  have h1c : ∀ p ∈ l1, canonicalKey p.1 ≠ canonicalKey "User-Agent" := by
    rw [canonicalKey_UA]; exact h1
  have h2c : ∀ p ∈ l2, canonicalKey p.1 ≠ canonicalKey "User-Agent" := by
    rw [canonicalKey_UA]; exact h2
  have hs := valuesCanon_copyHeaders_single l1 l2 "User-Agent" vs h1c h2c
  rw [canonicalKey_UA] at hs
  simp [hvs] at hs
  have hv : valuesCanon (transformHeaders (l1 ++ ("User-Agent", vs) :: l2)) "User-Agent"
      = ["MyCustomUserAgent"] := by
    rw [transformHeaders, Header.set, valuesCanon_setCanon, if_neg (by decide), hs]
  constructor
  · rw [Header.values, canonicalKey_UA]; exact hv
  · exact countEntriesCanon_eq_one _ _ (nodupKeys_transformHeaders _) (by rw [hv]; simp)

/-- C1 witness: a concrete inbound header map with one other header and two
User-Agent values collapses to the single fixed User-Agent constant. -/
theorem userAgent_override_witness :
    Header.values (transformHeaders
        ([("Accept", ["text/html"])] ++ ("User-Agent", ["curl/8.0", "curl/8.1"]) :: []))
        "User-Agent" = ["MyCustomUserAgent"] ∧
    countEntriesCanon (transformHeaders
        ([("Accept", ["text/html"])] ++ ("User-Agent", ["curl/8.0", "curl/8.1"]) :: []))
        "User-Agent" = 1 :=
  userAgent_override [("Accept", ["text/html"])] [] ["curl/8.0", "curl/8.1"]
    (by decide) (by decide) (by decide)

/-- C2: for every inbound header map, the outbound request built by
transformHeaders contains the header X-Added-Header with the single value
"HeaderValue" in exactly one map entry, whatever values the inbound request
carried under that name. -/
theorem addedHeader_always_set (inbound : Header) :
    Header.values (transformHeaders inbound) "X-Added-Header" = ["HeaderValue"] ∧
    countEntriesCanon (transformHeaders inbound) "X-Added-Header" = 1 := by
  have hv : valuesCanon (transformHeaders inbound) (canonicalKey "X-Added-Header")
      = ["HeaderValue"] := by
    rw [transformHeaders, Header.set, valuesCanon_setCanon, if_pos rfl]
  constructor
  · exact hv
  · refine countEntriesCanon_eq_one _ _ (nodupKeys_transformHeaders _) ?_
    rw [← canonicalKey_XAH, hv]; simp

/-- C10: the User-Agent override is triggered only by exact equality of the
map key with "User-Agent"; every entry of the inbound map whose key differs
from that exact string — case variations included — has all of its values
copied to the outbound request unchanged, in order, and without
deduplication (the copied value list is equal to the inbound one). -/
theorem copy_exact_match_only (inbound : Header)
    (hcanon : (inbound.map (fun p => canonicalKey p.1)).Nodup) :
    ∀ p ∈ inbound, p.1 ≠ "User-Agent" →
      valuesCanon (copyHeaders inbound) (canonicalKey p.1) = p.2 := by
  intro p hp hne
  obtain ⟨l1, l2, rfl⟩ := List.append_of_mem hp
  rw [List.map_append, List.map_cons, List.nodup_append] at hcanon
  obtain ⟨hn1, hn2, hdisj⟩ := hcanon
  rw [List.nodup_cons] at hn2
  have h2 : ∀ x ∈ l2, canonicalKey x.1 ≠ canonicalKey p.1 := by
    intro x hx heq
    exact hn2.1 (heq ▸ List.mem_map_of_mem _ hx)
  have h1 : ∀ x ∈ l1, canonicalKey x.1 ≠ canonicalKey p.1 := by
    intro x hx heq
    exact hdisj (List.mem_map_of_mem _ hx) (by rw [heq]; exact List.mem_cons_self _ _)
  have hs := valuesCanon_copyHeaders_single l1 l2 p.1 p.2 h1 h2
  rw [if_neg hne] at hs
  exact hs

/-- C10 witness: a lowercase map key "user-agent" is not overridden; its
values — duplicates included — are copied verbatim and in order. -/
theorem copy_exact_match_only_witness :
    valuesCanon (copyHeaders [("user-agent", ["a", "a", "b"])])
        (canonicalKey "user-agent") = ["a", "a", "b"] :=
  copy_exact_match_only [("user-agent", ["a", "a", "b"])] (by decide)
    ("user-agent", ["a", "a", "b"]) (by simp) (by decide)

theorem redirectHandler_attempts (r : Request) (targetServer : String) (target : GoURL)
    (network : ProxyRequest → Except String Response)
    (hp : parseURL targetServer = Except.ok target) :
    (redirectHandler r targetServer network).attempts
      = [outboundRequest (logRequest r).1 target] := by
  unfold redirectHandler
  rw [hp]
  cases hn : network (outboundRequest (logRequest r).1 target) <;> simp [hn]

theorem logResponse_ok (resp : Response) (t : String)
    (hb : resp.body = BodyState.readable t) :
    (logResponse resp).1 = { resp with body := BodyState.readable t } := by
  simp [logResponse, hb, readAll]

theorem redirectHandler_ok (r : Request) (targetServer : String) (target : GoURL)
    (network : ProxyRequest → Except String Response) (resp : Response) (b : String)
    (hp : parseURL targetServer = Except.ok target)
    (hn : network (outboundRequest (logRequest r).1 target) = Except.ok resp)
    (hb : resp.body = BodyState.readable b) :
    redirectHandler r targetServer network =
      { status := resp.statusCode,
        clientHeader := relayHeaders resp.header,
        clientBody := b,
        requestLog := (logRequest r).2,
        responseLog := (logResponse resp).2,
        errorLog := [],
        attempts := [outboundRequest (logRequest r).1 target] } := by
  unfold redirectHandler
  rw [hp]
  simp only [hn, logResponse_ok resp b hb, copyBody]

theorem valuesCanon_relayEntry (out : Header) (p : String × List String) (q : String) :
    valuesCanon (relayEntry out p) q =
      if q = canonicalKey p.1 then valuesCanon out q ++ p.2 else valuesCanon out q := by
  have hfn : (fun o v => Header.add o p.1 v) =
      (fun (o : Header) (v : String) => addCanon o (canonicalKey p.1) v) := by
    funext o v; rfl
  rw [relayEntry, hfn, valuesCanon_foldl_addCanon]

theorem valuesCanon_foldl_relayEntry_frame (l : Header) (out : Header) (q : String)
    (hfr : ∀ p ∈ l, canonicalKey p.1 ≠ q) :
    valuesCanon (l.foldl relayEntry out) q = valuesCanon out q := by
  induction l generalizing out with
  | nil => rfl
  | cons p rest ih =>
    rw [List.foldl_cons, ih _ (fun x hx => hfr x (List.mem_cons_of_mem p hx)),
      valuesCanon_relayEntry]
    have hp := Ne.symm (hfr p (List.mem_cons_self p rest))
    simp [hp]

theorem valuesCanon_relayHeaders (h : Header)
    (hnd : (h.map (fun p => canonicalKey p.1)).Nodup) :
    ∀ p ∈ h, valuesCanon (relayHeaders h) (canonicalKey p.1) = p.2 := by
  intro p hp
  obtain ⟨l1, l2, rfl⟩ := List.append_of_mem hp
  rw [List.map_append, List.map_cons, List.nodup_append] at hnd
  obtain ⟨hn1, hn2, hdisj⟩ := hnd
  rw [List.nodup_cons] at hn2
  have h2 : ∀ x ∈ l2, canonicalKey x.1 ≠ canonicalKey p.1 := fun x hx heq =>
    hn2.1 (heq ▸ List.mem_map_of_mem _ hx)
  have h1 : ∀ x ∈ l1, canonicalKey x.1 ≠ canonicalKey p.1 := fun x hx heq =>
    hdisj (List.mem_map_of_mem _ hx) (by rw [heq]; exact List.mem_cons_self _ _)
  rw [relayHeaders, List.foldl_append, List.foldl_cons,
    valuesCanon_foldl_relayEntry_frame l2 _ _ h2, valuesCanon_relayEntry, if_pos rfl,
    valuesCanon_foldl_relayEntry_frame l1 _ _ h1]
  rfl

/-- C3: a readable request body survives logRequest unchanged — the body is
restored to a fresh stream with byte-identical content — and a readable
upstream response body likewise survives logResponse. -/
theorem log_nondestructive (r : Request) (resp : Response) (s t : String)
    (hr : r.body = BodyState.readable s) (hs : s ≠ "")
    (ht : resp.body = BodyState.readable t) :
    (logRequest r).1.body = BodyState.readable s ∧
    (logResponse resp).1.body = BodyState.readable t := by
  constructor
  · simp [logRequest, hr, readAll]
  · simp [logResponse, ht, readAll]

/-- C3 witness: concrete nonempty request and response bodies are intact
after logging. -/
theorem log_nondestructive_witness :
    (logRequest reqPayload).1.body = BodyState.readable "payload" ∧
    (logResponse respOK).1.body = BodyState.readable "resp" :=
  log_nondestructive reqPayload respOK "payload" "resp" rfl (by decide) rfl

/-- C4: for the target base URL of the P4 example and the inbound path and
query of that example, the upstream URL the handler dispatches to is
exactly the target scheme and host combined with the inbound path and
query, the base path being overridden. -/
theorem url_resolution_p4 :
    parseURL "/v1/items?x=1" = Except.ok c4Request.url ∧
    ∀ network : ProxyRequest → Except String Response,
      ((redirectHandler c4Request "http://api.example.com/base" network).attempts.map
          ProxyRequest.urlStr)
        = ["http://api.example.com/v1/items?x=1"] := by
  refine ⟨rfl, fun network => ?_⟩
  have hp : parseURL "http://api.example.com/base" = Except.ok c4Target := rfl
  rw [redirectHandler_attempts c4Request "http://api.example.com/base" c4Target network hp]
  rfl

/-- C5: on a successful upstream call whose response header map has
canonically distinct keys and whose body stream is fresh, the handler
relays the status code, every header value list and the body bytes to the
client unchanged, with nothing on the error channel. -/
theorem response_passthrough (r : Request) (targetServer : String) (target : GoURL)
    (network : ProxyRequest → Except String Response) (resp : Response) (b : String)
    (hp : parseURL targetServer = Except.ok target)
    (hn : network (outboundRequest (logRequest r).1 target) = Except.ok resp)
    (hb : resp.body = BodyState.readable b)
    (hnd : (resp.header.map (fun p => canonicalKey p.1)).Nodup) :
    (redirectHandler r targetServer network).status = resp.statusCode ∧
    (redirectHandler r targetServer network).clientBody = b ∧
    (redirectHandler r targetServer network).errorLog = [] ∧
    ∀ p ∈ resp.header,
      valuesCanon (redirectHandler r targetServer network).clientHeader
        (canonicalKey p.1) = p.2 := by
  rw [redirectHandler_ok r targetServer target network resp b hp hn hb]
  exact ⟨rfl, rfl, rfl, valuesCanon_relayHeaders resp.header hnd⟩

/-- C5 witness: the P5 example — status 201, X-Foo with values a and b, and
body hello — reaches the client verbatim. -/
theorem response_passthrough_witness :
    (redirectHandler reqGET "http://upstream.example/" netOK).status = 201 ∧
    (redirectHandler reqGET "http://upstream.example/" netOK).clientBody = "hello" ∧
    valuesCanon (redirectHandler reqGET "http://upstream.example/" netOK).clientHeader
      (canonicalKey "X-Foo") = ["a", "b"] := by
  have h := response_passthrough reqGET "http://upstream.example/" upstreamTarget
    netOK resp201 "hello" rfl rfl rfl (by decide)
  exact ⟨h.1, h.2.1, h.2.2.2 ("X-Foo", ["a", "b"]) (by simp [resp201])⟩

/-- C6: when the single dispatch of the outbound request fails, the client
gets status 500 with the message "Failed to connect to server", exactly one
line goes to the error channel, nothing goes to the response channel, and
exactly one upstream attempt was ever made. -/
theorem connect_failure_maps_to_500 (r : Request) (targetServer : String) (target : GoURL)
    (network : ProxyRequest → Except String Response) (e : String)
    (hp : parseURL targetServer = Except.ok target)
    (hn : network (outboundRequest (logRequest r).1 target) = Except.error e) :
    (redirectHandler r targetServer network).status = 500 ∧
    (redirectHandler r targetServer network).clientBody = "Failed to connect to server\n" ∧
    (redirectHandler r targetServer network).errorLog
      = ["Failed to connect to server: " ++ e] ∧
    (redirectHandler r targetServer network).responseLog = [] ∧
    (redirectHandler r targetServer network).attempts.length = 1 := by
  unfold redirectHandler
  rw [hp]
  simp [hn, httpErrorBody]

/-- C6 witness: a concrete refused connection yields the 500 mapping with
one error line and a single attempt. -/
theorem connect_failure_maps_to_500_witness :
    (redirectHandler reqGET "http://upstream.example/" netFail).status = 500 ∧
    (redirectHandler reqGET "http://upstream.example/" netFail).clientBody
      = "Failed to connect to server\n" ∧
    (redirectHandler reqGET "http://upstream.example/" netFail).errorLog
      = ["Failed to connect to server: " ++ "connection refused"] ∧
    (redirectHandler reqGET "http://upstream.example/" netFail).responseLog = [] ∧
    (redirectHandler reqGET "http://upstream.example/" netFail).attempts.length = 1 :=
  connect_failure_maps_to_500 reqGET "http://upstream.example/" upstreamTarget
    netFail "connection refused" rfl rfl

/-- C7: when parsing the configured target base URL fails, the client gets
status 500 with the message "Invalid target server URL", one line goes to
the error channel, and the request terminates with no upstream dispatch and
nothing on the response channel. -/
theorem invalid_target_maps_to_500 (r : Request) (targetServer : String)
    (network : ProxyRequest → Except String Response) (e : String)
    (hp : parseURL targetServer = Except.error e) :
    (redirectHandler r targetServer network).status = 500 ∧
    (redirectHandler r targetServer network).clientBody = "Invalid target server URL\n" ∧
    (redirectHandler r targetServer network).errorLog
      = ["Invalid target server URL: " ++ e] ∧
    (redirectHandler r targetServer network).responseLog = [] ∧
    (redirectHandler r targetServer network).attempts = [] := by
  unfold redirectHandler
  rw [hp]
  simp [httpErrorBody]

/-- C7 witness: a target URL holding a control byte fails to parse and
produces the 500 mapping with no attempt. -/
theorem invalid_target_maps_to_500_witness :
    (redirectHandler reqGET "\n" netFail).status = 500 ∧
    (redirectHandler reqGET "\n" netFail).clientBody = "Invalid target server URL\n" ∧
    (redirectHandler reqGET "\n" netFail).attempts = [] :=
  have h := invalid_target_maps_to_500 reqGET "\n" netFail
    "net/url: invalid control character in URL" rfl
  ⟨h.1, h.2.1, h.2.2.2.2⟩

/-- C8: logRequest emits the method-and-URL line first, then one line per
header (name, value) pair — one line per value — then on a successful body
read exactly one body line, and on a failed read the failure line instead
of the body line; in either case the request is not aborted: with a parsed
target the handler still makes its upstream attempt. -/
theorem logRequest_line_structure (r : Request) :
    (∀ s, r.body = BodyState.readable s →
      (logRequest r).2 =
        ("Request: " ++ r.method ++ " " ++ urlString r.url)
          :: headerLines "Request Header: " r.header ++ ["Request Body: " ++ s]) ∧
    (∀ m, r.body = BodyState.failing m →
      (logRequest r).2 =
        ("Request: " ++ r.method ++ " " ++ urlString r.url)
          :: headerLines "Request Header: " r.header
            ++ ["Failed to read request body: " ++ m]) ∧
    (∀ targetServer target network, parseURL targetServer = Except.ok target →
      (redirectHandler r targetServer network).attempts ≠ []) := by
  refine ⟨?_, ?_, ?_⟩
  · intro s hs; simp [logRequest, hs, readAll]
  · intro m hm; simp [logRequest, hm, readAll]
  · intro ts target network hp
    rw [redirectHandler_attempts r ts target network hp]
    simp

/-- C8 witness: a concrete request with a two-valued header produces the
expected line list, and a concrete failing-body request still reaches the
dispatch step. -/
theorem logRequest_line_structure_witness :
    (logRequest reqPOST).2 =
      ("Request: " ++ "POST" ++ " " ++ urlString reqPOST.url)
        :: headerLines "Request Header: " [("X-M", ["1", "2"])]
          ++ ["Request Body: " ++ "B"] ∧
    (redirectHandler reqFailBody "http://upstream.example/" netFail).attempts ≠ [] := by
  constructor
  · exact (logRequest_line_structure reqPOST).1 "B" rfl
  · exact (logRequest_line_structure reqFailBody).2.2
      "http://upstream.example/" upstreamTarget netFail rfl

/-- C9: when reading the inbound body fails, logRequest does not restore a
fresh readable stream — the body stays in its failed state — and the
outbound request the handler then dispatches carries exactly that
unrestored stream. -/
theorem failed_body_read_not_restored (r : Request) (m : String)
    (hb : r.body = BodyState.failing m) :
    (logRequest r).1.body = BodyState.failing m ∧
    (∀ s, (logRequest r).1.body ≠ BodyState.readable s) ∧
    (∀ targetServer target network, parseURL targetServer = Except.ok target →
      ∀ a ∈ (redirectHandler r targetServer network).attempts,
        a.body = BodyState.failing m) := by
  have h1 : (logRequest r).1.body = BodyState.failing m := by
    simp [logRequest, hb, readAll]
  refine ⟨h1, ?_, ?_⟩
  · intro s; rw [h1]; simp
  · intro ts target network hp a ha
    rw [redirectHandler_attempts r ts target network hp] at ha
    simp at ha
    rw [ha]
    simp [outboundRequest, h1]

/-- C9 witness: a concrete failing body is still the failing stream after
logRequest, and the dispatched request carries it. -/
theorem failed_body_read_not_restored_witness :
    (logRequest reqFailBody).1.body = BodyState.failing "read error" ∧
    ∀ a ∈ (redirectHandler reqFailBody "http://upstream.example/" netFail).attempts,
      a.body = BodyState.failing "read error" :=
  have h := failed_body_read_not_restored reqFailBody "read error" rfl
  ⟨h.1, h.2.2 "http://upstream.example/" upstreamTarget netFail rfl⟩

end GoProxy
